import Mathlib

set_option maxRecDepth 4000

/-!
Verification development for the native event core in
src/java.base/macosx/native/libnio/fs/MacOSXWatchService.c.

The C file is embedded shallowly:

* The Callback Dispatcher (static function callback, lines 81-140) is a
  loop over chunk descriptors.  JNI calls whose success depends on the
  runtime (PushLocalFrame, NewObjectArray, JNU_NewStringPlatform, the
  JNU_CallMethodByName forwarding call) are driven by boolean oracles
  indexed by iteration or by event index.  The pending-exception state of
  the JNIEnv is threaded explicitly: a failing JNI call posts an
  exception, ExceptionCheck observes it, and ExceptionDescribe (which the
  code performs only under tracing) clears it.  The printf side effects
  are elided except for the entry trace of lines 88-91, which is the one
  observable a claim mentions.
* Machine arithmetic is explicit: numEventsTotal and eventIndex are
  size_t values (Nat reduced mod 2^64 where updates can wrap) and
  numEventsToReport is a jsize, a 32-bit signed int, produced by the C
  conversion at the declaration on lines 105-107.
* The lifecycle entry points (createNewEventStreamFor, scheduleEventLoop,
  runLoopStop, FSEventStreamInvalidate) are straight-line sequences of
  native calls; they are embedded as the action traces they perform,
  again with oracles for the fallible JNI steps.
-/

/-- Conversion of a size_t value to jsize (32-bit signed int), as performed
by the initialization of numEventsToReport on lines 105-107 of the source. -/
def toJsize (n : Nat) : Int :=
  let m := n % 4294967296
  if m < 2147483648 then (m : Int) else (m : Int) - 4294967296

/-- size_t update eventIndex += numEventsToReport (line 138): a 64-bit
unsigned accumulator incremented by a (possibly negative) jsize value. -/
def addSizeT (idx : Nat) (d : Int) : Nat :=
  (((idx : Int) + d) % 18446744073709551616).toNat

/-- The constant MAX_EVENTS_TO_REPORT_AT_ONCE = INT_MAX - 2 (line 100). -/
def maxEventsToReportAtOnce : Nat := 2147483645

/-- Value of numEventsToReport computed on lines 104-107: the remaining
count is clamped to the maximum, but the else branch reuses numEventsTotal
rather than numEventsRemaining, exactly as the source does. -/
def chunkToReport (maxC total idx : Nat) : Int :=
  let remaining := total - idx
  if remaining > maxC then toJsize maxC else toJsize total

/-- Outcomes of the fallible JNI steps of one callback invocation.
framePushOk, arrayCreateOk and forwardThrows are indexed by the loop
iteration number; stringConvOk is indexed by the global event index read
by JNU_NewStringPlatform. -/
structure CallbackOracle where
  envOk : Bool
  framePushOk : Nat → Bool
  arrayCreateOk : Nat → Bool
  stringConvOk : Nat → Bool
  forwardThrows : Nat → Bool

/-- One forwarding call as the handler observes it (lines 124-126): the
sub-range base offset passed for the flags and ids pointers, the
numEventsToReport count, whether the Java paths array existed (non-NULL),
how many of its elements had been populated, and whether the chunk
construction had fully succeeded (the value of OK at the call). -/
structure ForwardCall where
  eventIndex : Nat
  count : Int
  arrayCreated : Bool
  pathsBuilt : Nat
  ok : Bool
  deriving DecidableEq, Repr

/-- Intermediate ok/pending-exception state while one chunk is built. -/
structure StepOut where
  ok : Bool
  pe : Bool
  deriving DecidableEq, Repr

/-- Model of createJavaArray (lines 70-79): NewObjectArray followed by
ExceptionCheck; a detected exception is described, and thereby cleared,
only when tracing is enabled, and FALSE is returned.  The ExceptionCheck
also observes an exception that was already pending on entry.  Skipped
when OK is already false (line 113). -/
def createJavaArrayM (tracing : Bool) (s : StepOut) (arrOk : Bool) : StepOut :=
  if s.ok then
    let exc := s.pe || !arrOk
    if exc then ⟨false, if tracing then false else exc⟩
    else ⟨true, s.pe⟩
  else s

/-- Inner loop of convertToJavaStringArray (lines 56-65): converts the
events one by one starting at the chunk base index, stopping at the first
JNU_NewStringPlatform failure; returns the success flag and how many
array elements were stored. -/
def convertPathsAux (convOk : Nat → Bool) (eventIndex : Nat) : Nat → Nat → Bool × Nat
  | 0, built => (true, built)
  | n + 1, built =>
    if convOk (eventIndex + built) then convertPathsAux convOk eventIndex n (built + 1)
    else (false, built)

/-- Model of convertToJavaStringArray (lines 54-68) under the guard at
line 117: a conversion failure leaves a pending exception that is
described, hence cleared, only under tracing (lines 59-61).  Skipped when
OK is already false.  Returns the step outcome and the number of
populated elements. -/
def convertStep (tracing : Bool) (s : StepOut) (convOk : Nat → Bool)
    (eventIndex : Nat) (count : Int) : StepOut × Nat :=
  if s.ok then
    let r := convertPathsAux convOk eventIndex count.toNat 0
    if r.1 then (⟨true, s.pe⟩, r.2)
    else (⟨false, if tracing then false else true⟩, r.2)
  else (s, 0)

/-- Model of the forwarding call JNU_CallMethodByName (lines 124-126) and
the tracing-only ExceptionDescribe after it (lines 128-132): the call is
made unconditionally; hasException is true when an exception was already
pending or the handler raised one, and with tracing enabled the describe
clears it.  Returns the pending-exception state after the call. -/
def forwardStep (tracing : Bool) (pe throws : Bool) : Bool :=
  let hasEx := pe || throws
  if tracing && hasEx then false else hasEx

/-- Result of one iteration of the chunk loop. -/
structure IterOut where
  fc : ForwardCall
  okAfter : Bool
  peAfter : Bool
  idxNext : Nat
  deriving DecidableEq, Repr

/-- One iteration of the chunk loop (lines 103-139): compute
numEventsToReport, push a local frame (a failure posts an
OutOfMemoryError), build and fill the Java paths array under the OK
guards, make the forwarding call unconditionally, and advance
eventIndex. -/
def callbackIter (tracing : Bool) (maxC : Nat) (o : CallbackOracle)
    (total idx k : Nat) (pe : Bool) : IterOut :=
  let toReport := chunkToReport maxC total idx
  let framePushed := o.framePushOk k
  let s1 : StepOut := ⟨framePushed, pe || !framePushed⟩
  let arrayCreated := s1.ok && o.arrayCreateOk k
  let s2 := createJavaArrayM tracing s1 (o.arrayCreateOk k)
  let c := convertStep tracing s2 o.stringConvOk idx toReport
  let peAfter := forwardStep tracing c.1.pe (o.forwardThrows k)
  ⟨⟨idx, toReport, arrayCreated, c.2, c.1.ok⟩, c.1.ok, peAfter, addSizeT idx toReport⟩

/-- Outcome of the chunk loop. -/
structure LoopResult where
  forwards : List ForwardCall
  pendingEx : Bool
  finished : Bool
  deriving Repr

/-- The chunk loop for(eventIndex = 0; OK and eventIndex below total;)
of lines 102-139, with explicit fuel: the C loop does not terminate for
every input (for example numEventsTotal = 2 to the power 32 makes the
jsize conversion yield 0 forever), so finished records whether the loop
exited within the given fuel. -/
def callbackLoop (tracing : Bool) (maxC : Nat) (o : CallbackOracle) (total : Nat) :
    Nat → Nat → Nat → Bool → LoopResult
  | 0, _, _, pe => ⟨[], pe, false⟩
  | fuel + 1, idx, k, pe =>
    if idx < total then
      let it := callbackIter tracing maxC o total idx k pe
      if it.okAfter then
        let r := callbackLoop tracing maxC o total fuel it.idxNext (k + 1) it.peAfter
        ⟨it.fc :: r.forwards, r.pendingEx, r.finished⟩
      else ⟨[it.fc], it.peAfter, true⟩
    else ⟨[], pe, true⟩

/-- Lines a tracing run prints on entry (lines 88-91). -/
inductive TraceLine where
  | callbackFired
  | handlerThread
  deriving DecidableEq, Repr

/-- Result of one whole callback invocation. -/
structure CallbackResult where
  forwards : List ForwardCall
  pendingEx : Bool
  entryTrace : List TraceLine
  finished : Bool
  deriving Repr

/-- The Callback Dispatcher (static function callback, lines 81-140): the
entry trace is printed first when tracing is enabled, then a missing
JNIEnv drops the whole invocation (lines 93-96), otherwise the chunk loop
runs. -/
def runCallback (tracing : Bool) (maxC : Nat) (o : CallbackOracle)
    (total fuel : Nat) : CallbackResult :=
  let entry := if tracing then [TraceLine.callbackFired, TraceLine.handlerThread] else []
  if o.envOk then
    let r := callbackLoop tracing maxC o total fuel 0 0 false
    ⟨r.forwards, r.pendingEx, entry, r.finished⟩
  else ⟨[], false, entry, true⟩

/-- The oracle in which every JNI step succeeds and the handler never
throws. -/
def allOk : CallbackOracle :=
  ⟨true, fun _ => true, fun _ => true, fun _ => true, fun _ => false⟩

/-- The pure chunk-descriptor sequence produced by the loop head of lines
103-107 and 138: the (eventIndex, numEventsToReport) pair of each
iteration, assuming every JNI step succeeds. -/
def chunkDescriptorsAux (maxC total : Nat) : Nat → Nat → List (Nat × Int)
  | 0, _ => []
  | fuel + 1, idx =>
    if idx < total then
      (idx, chunkToReport maxC total idx) ::
        chunkDescriptorsAux maxC total fuel (addSizeT idx (chunkToReport maxC total idx))
    else []

/-- Chunk descriptors of a whole callback invocation. -/
def chunkDescriptors (maxC total fuel : Nat) : List (Nat × Int) :=
  chunkDescriptorsAux maxC total fuel 0

/-- Checks that a descriptor list tiles the input exactly: sub-ranges are
consecutive, start at pos, and end at total, so that the concatenated
path, flag and id sub-ranges equal the original arrays in order. -/
def coversFrom (total : Nat) : List (Nat × Int) → Nat → Bool
  | [], pos => pos == total
  | p :: rest, pos =>
    (p.1 == pos) && decide (0 ≤ p.2) && coversFrom total rest (pos + p.2.toNat)

/-- Modelled from the spec: the intended chunk-size policy of section 9 of
the specification, chunk size = min(remaining, maxChunkSize), stated there
as the correct policy that the source clamp deviates from.  Used only to
compare the source behavior against the stated intent. -/
def intendedChunksAux (maxC : Nat) : Nat → Nat → Nat → List (Nat × Nat)
  | 0, _, _ => []
  | fuel + 1, idx, remaining =>
    if remaining = 0 then []
    else
      let c := min remaining maxC
      (idx, c) :: intendedChunksAux maxC fuel (idx + c) (remaining - c)

/-- Modelled from the spec: intended chunk descriptors for a whole
invocation under the policy chunk size = min(remaining, maxChunkSize). -/
def intendedChunks (maxC total : Nat) : List (Nat × Nat) :=
  intendedChunksAux maxC total 0 total

/-- Oracle in which the handler raises an exception on the second
forwarding call (iteration 1) and every construction step succeeds. -/
def oracleThrowsOnSecond : CallbackOracle :=
  ⟨true, fun _ => true, fun _ => true, fun _ => true, fun k => k == 1⟩

/-- Oracle in which NewObjectArray fails on the second chunk. -/
def oracleArrayFailSecond : CallbackOracle :=
  ⟨true, fun _ => true, fun k => !(k == 1), fun _ => true, fun _ => false⟩

/-- Oracle in which every JNU_NewStringPlatform call fails. -/
def oracleConvFails : CallbackOracle :=
  ⟨true, fun _ => true, fun _ => true, fun _ => false, fun _ => false⟩

/-- Oracle in which JNU_GetEnv returns NULL. -/
def oracleEnvMissing : CallbackOracle :=
  ⟨false, fun _ => true, fun _ => true, fun _ => true, fun _ => false⟩

theorem convertPathsAux_true (e : Nat) :
    ∀ n b, convertPathsAux (fun _ => true) e n b = (true, b + n)
  | 0, b => rfl
  | n + 1, b => by
    simp [convertPathsAux, convertPathsAux_true e n (b + 1), Nat.add_comm,
      Nat.add_assoc, Nat.add_left_comm]

theorem convertPathsAux_built (convOk : Nat → Bool) (e : Nat) :
    ∀ n b r, convertPathsAux convOk e n b = (true, r) → r = b + n
  | 0, b, r, h => by
    simp [convertPathsAux] at h
    omega
  | n + 1, b, r, h => by
    rw [convertPathsAux] at h
    by_cases hc : convOk (e + b)
    · rw [if_pos hc] at h
      have := convertPathsAux_built convOk e n (b + 1) r h
      omega
    · rw [if_neg hc] at h
      simp at h

theorem callbackIter_allOk (t : Bool) (maxC total idx k : Nat) :
    callbackIter t maxC allOk total idx k false =
      ⟨⟨idx, chunkToReport maxC total idx, true,
          (chunkToReport maxC total idx).toNat, true⟩,
        true, false, addSizeT idx (chunkToReport maxC total idx)⟩ := by
  simp [callbackIter, allOk, createJavaArrayM, convertStep, forwardStep,
    convertPathsAux_true]

theorem callbackLoop_allOk (t : Bool) (maxC total : Nat) :
    ∀ fuel idx k, (callbackLoop t maxC allOk total fuel idx k false).forwards =
      (chunkDescriptorsAux maxC total fuel idx).map
        (fun p => ForwardCall.mk p.1 p.2 true p.2.toNat true)
  | 0, _, _ => rfl
  | fuel + 1, idx, k => by
    by_cases h : idx < total
    · simp [callbackLoop, chunkDescriptorsAux, h, callbackIter_allOk,
        callbackLoop_allOk t maxC total fuel _ (k + 1)]
    · simp [callbackLoop, chunkDescriptorsAux, h]

theorem runCallback_allOk (t : Bool) (maxC total fuel : Nat) :
    (runCallback t maxC allOk total fuel).forwards =
      (chunkDescriptors maxC total fuel).map
        (fun p => ForwardCall.mk p.1 p.2 true p.2.toNat true) := by
  have h := callbackLoop_allOk t maxC total fuel 0 0
  simpa [runCallback, chunkDescriptors, show allOk.envOk = true from rfl] using h

/-- Outcomes of the fallible steps of
Java_sun_nio_fs_MacOSXWatchService_createNewEventStreamFor. -/
structure CreateOracle where
  toCFStringOk : Bool
  cfArrayOk : Bool
  streamCreateOk : Bool
  setFieldOk : Bool
  deriving DecidableEq, Repr

/-- Native and JNI calls performed by the stream lifecycle entry points. -/
inductive CreateAction where
  | toCFStringCall
  | cfArrayCreateCall
  | newGlobalRef
  | fsEventStreamCreate (sinceNow : Bool)
  | setGlobalThisRef
  | deleteGlobalRef
  | scheduleWithRunLoop
  | streamStart
  deriving DecidableEq, Repr

/-- Result of createNewEventStreamFor: the returned jlong (0 on failure, 1
standing for any non-NULL FSEventStreamRef), whether FSEventStreamCreate
produced a stream, and the calls performed in order. -/
structure CreateResult where
  ret : Nat
  streamCreated : Bool
  actions : List CreateAction
  deriving DecidableEq, Repr

/-- Embedding of Java_sun_nio_fs_MacOSXWatchService_createNewEventStreamFor
(lines 145-183): toCFString and CFArrayCreate failures return 0 before the
global reference is taken (CHECK_NULL_RETURN, lines 150 and 152); then
NewGlobalRef is taken and FSEventStreamCreate is called with the
kFSEventStreamEventIdSinceNow anchor (line 165, the sinceNow flag); a NULL
stream skips the globalThisRef store and returns 0; a failing store
returns 0 though the stream was created.  The function contains no
DeleteGlobalRef and no scheduling call. -/
def createNewEventStreamFor (o : CreateOracle) : CreateResult :=
  if !o.toCFStringOk then ⟨0, false, [CreateAction.toCFStringCall]⟩
  else if !o.cfArrayOk then
    ⟨0, false, [CreateAction.toCFStringCall, CreateAction.cfArrayCreateCall]⟩
  else
    let acts := [CreateAction.toCFStringCall, CreateAction.cfArrayCreateCall,
      CreateAction.newGlobalRef, CreateAction.fsEventStreamCreate true]
    if !o.streamCreateOk then ⟨0, false, acts⟩
    else if !o.setFieldOk then ⟨0, true, acts ++ [CreateAction.setGlobalThisRef]⟩
    else ⟨1, true, acts ++ [CreateAction.setGlobalThisRef]⟩

/-- Embedding of Java_sun_nio_fs_MacOSXWatchService_scheduleEventLoop
(lines 190-200): schedule on the current run loop, then start the
stream. -/
def scheduleEventLoopActions : List CreateAction :=
  [CreateAction.scheduleWithRunLoop, CreateAction.streamStart]

/-- Calls performed by
Java_sun_nio_fs_MacOSXWatchService_FSEventStreamInvalidate. -/
inductive DisposeAction where
  | fsEventStreamStopCall
  | fsEventStreamInvalidateCall
  | fsEventStreamReleaseCall
  deriving DecidableEq, Repr

/-- Embedding of Java_sun_nio_fs_MacOSXWatchService_FSEventStreamInvalidate
(lines 249-257): stop, invalidate, release, in this order. -/
def disposeActions : List DisposeAction :=
  [DisposeAction.fsEventStreamStopCall, DisposeAction.fsEventStreamInvalidateCall,
    DisposeAction.fsEventStreamReleaseCall]

/-- Teardown states of a started and scheduled stream. -/
inductive StreamState where
  | delivering
  | stoppedDelivery
  | unscheduled
  | released
  deriving DecidableEq, Repr

/-- Legal-ordering discipline of the FSEvents teardown API for a started
and scheduled stream: FSEventStreamStop first (after it no further
callback invocations are initiated), then FSEventStreamInvalidate
(unschedule from any run loops), then FSEventStreamRelease. -/
def disposeStep : StreamState → DisposeAction → Option StreamState
  | StreamState.delivering, DisposeAction.fsEventStreamStopCall =>
      some StreamState.stoppedDelivery
  | StreamState.stoppedDelivery, DisposeAction.fsEventStreamInvalidateCall =>
      some StreamState.unscheduled
  | StreamState.unscheduled, DisposeAction.fsEventStreamReleaseCall =>
      some StreamState.released
  | _, _ => none

/-- Folding the dispose call sequence through the teardown discipline. -/
def runDispose : Option StreamState :=
  disposeActions.foldl (fun s a => s.bind (fun st => disposeStep st a))
    (some StreamState.delivering)

/-- C1: the claim fails on the code.  With every construction and
forwarding step succeeding, a callback invocation delivering
N = 2147483646 = MAX_EVENTS_TO_REPORT_AT_ONCE + 1 events yields two
forwarding calls, and the second passes count 2147483646 (line 107 reuses
numEventsTotal instead of numEventsRemaining) with sub-ranges starting at
offset 2147483645, so the concatenated path, flag and id sub-ranges do
not equal the original input. -/
theorem c1_final_chunk_reuses_total :
    (runCallback false maxEventsToReportAtOnce allOk 2147483646 4).forwards.map
        (fun fc => (fc.eventIndex, fc.count)) =
      [(0, (2147483645 : Int)), (2147483645, 2147483646)] ∧
    coversFrom 2147483646
      ((runCallback false maxEventsToReportAtOnce allOk 2147483646 4).forwards.map
        (fun fc => (fc.eventIndex, fc.count))) 0 = false := by
  rw [runCallback_allOk]
  decide

/-- C4 counterexample: for 150000 events with maxChunkSize 65536, the
third batch has 18928 events under the intended min(remaining, max)
policy and 150000 in the code as written; neither equals the 18368 the
claim states, and the code does not implement min(remaining, max). -/
theorem c4_counterexample :
    (chunkDescriptors 65536 150000 4).map Prod.snd ≠
      [(65536 : Int), 65536, 18368] ∧
    (intendedChunks 65536 150000).map Prod.snd ≠ [65536, 65536, 18368] := by
  decide

/-- C4 amended: for 150000 events with maxChunkSize 65536 the intended
policy chunk = min(remaining, max) yields exactly 3 batches sized 65536,
65536 and 18928 that tile the input in arrival order (so sequence ids
stay in arrival order across batch boundaries), while the code as written
sizes the third batch 150000 by reusing the total count. -/
theorem c4_amended_chunk_sizes :
    intendedChunks 65536 150000 = [(0, 65536), (65536, 65536), (131072, 18928)] ∧
    coversFrom 150000
      ((intendedChunks 65536 150000).map (fun p => (p.1, (p.2 : Int)))) 0 = true ∧
    chunkDescriptors 65536 150000 4 =
      [(0, 65536), (65536, 65536), (131072, 150000)] := by
  decide

/-- C8: the dispose entry point performs exactly the three teardown steps
stop, invalidate, release, in this order, and that order satisfies the
teardown discipline of a started and scheduled stream. -/
theorem c8_dispose_order :
    disposeActions = [DisposeAction.fsEventStreamStopCall,
      DisposeAction.fsEventStreamInvalidateCall,
      DisposeAction.fsEventStreamReleaseCall] ∧
    runDispose = some StreamState.released := by
  decide

theorem callbackIter_fc_ok (t : Bool) (maxC : Nat) (o : CallbackOracle)
    (total idx k : Nat) (pe : Bool) :
    (callbackIter t maxC o total idx k pe).fc.ok =
      (callbackIter t maxC o total idx k pe).okAfter := rfl

theorem callbackLoop_forwards_step (t : Bool) (maxC : Nat) (o : CallbackOracle)
    (total fuel idx k : Nat) (pe : Bool) (h : idx < total) :
    (callbackLoop t maxC o total (fuel + 1) idx k pe).forwards =
      (if (callbackIter t maxC o total idx k pe).okAfter then
        (callbackIter t maxC o total idx k pe).fc ::
          (callbackLoop t maxC o total fuel
            (callbackIter t maxC o total idx k pe).idxNext (k + 1)
            (callbackIter t maxC o total idx k pe).peAfter).forwards
      else [(callbackIter t maxC o total idx k pe).fc]) := by
  by_cases hok : (callbackIter t maxC o total idx k pe).okAfter = true <;>
    simp [callbackLoop, h, hok]

theorem callbackLoop_dropLast_ok (t : Bool) (maxC : Nat) (o : CallbackOracle) (total : Nat) :
    ∀ fuel idx k pe,
      ((callbackLoop t maxC o total fuel idx k pe).forwards.dropLast).all
        (fun fc => fc.ok) = true
  | 0, _, _, _ => rfl
  | fuel + 1, idx, k, pe => by
    by_cases h : idx < total
    · rw [callbackLoop_forwards_step t maxC o total fuel idx k pe h]
      by_cases hok : (callbackIter t maxC o total idx k pe).okAfter = true
      · rw [if_pos hok]
        have ih := callbackLoop_dropLast_ok t maxC o total fuel
          (callbackIter t maxC o total idx k pe).idxNext (k + 1)
          (callbackIter t maxC o total idx k pe).peAfter
        rcases hr : (callbackLoop t maxC o total fuel
            (callbackIter t maxC o total idx k pe).idxNext (k + 1)
            (callbackIter t maxC o total idx k pe).peAfter).forwards with _ | ⟨y, ys⟩
        · simp
        · rw [hr] at ih
          have hfc : (callbackIter t maxC o total idx k pe).fc.ok = true := by
            rw [callbackIter_fc_ok]; exact hok
          simp_all [List.dropLast_cons_of_ne_nil]
      · rw [if_neg hok]
        simp
    · simp [callbackLoop, h]

theorem runCallback_dropLast_ok (t : Bool) (maxC : Nat) (o : CallbackOracle)
    (total fuel : Nat) :
    ((runCallback t maxC o total fuel).forwards.dropLast).all
      (fun fc => fc.ok) = true := by
  by_cases he : o.envOk = true <;>
    simp [runCallback, he, callbackLoop_dropLast_ok]

theorem callbackIter_ok_full (t : Bool) (maxC : Nat) (o : CallbackOracle)
    (total idx k : Nat) (pe : Bool)
    (h : (callbackIter t maxC o total idx k pe).okAfter = true) :
    (callbackIter t maxC o total idx k pe).fc.arrayCreated = true ∧
    (callbackIter t maxC o total idx k pe).fc.pathsBuilt =
      (callbackIter t maxC o total idx k pe).fc.count.toNat := by
  rcases hc : convertPathsAux o.stringConvOk idx (chunkToReport maxC total idx).toNat 0
    with ⟨b, n⟩
  cases hf : o.framePushOk k <;> cases ha : o.arrayCreateOk k <;> cases pe <;> cases b <;>
    simp_all [callbackIter, createJavaArrayM, convertStep, forwardStep]
  all_goals simpa using convertPathsAux_built o.stringConvOk idx _ 0 n hc

theorem callbackLoop_mem_ok_full (t : Bool) (maxC : Nat) (o : CallbackOracle) (total : Nat) :
    ∀ fuel idx k pe fc, fc ∈ (callbackLoop t maxC o total fuel idx k pe).forwards →
      fc.ok = true → fc.arrayCreated = true ∧ fc.pathsBuilt = fc.count.toNat
  | 0, idx, k, pe, fc, hm, hok => by simp [callbackLoop] at hm
  | fuel + 1, idx, k, pe, fc, hm, hok => by
    by_cases h : idx < total
    · rw [callbackLoop_forwards_step t maxC o total fuel idx k pe h] at hm
      by_cases hko : (callbackIter t maxC o total idx k pe).okAfter = true
      · rw [if_pos hko] at hm
        rcases List.mem_cons.mp hm with hfc | hm2
        · subst hfc
          exact callbackIter_ok_full t maxC o total idx k pe hko
        · exact callbackLoop_mem_ok_full t maxC o total fuel _ _ _ fc hm2 hok
      · rw [if_neg hko] at hm
        rcases List.mem_singleton.mp hm with hfc
        subst hfc
        rw [callbackIter_fc_ok] at hok
        exact absurd hok hko
    · simp [callbackLoop, h] at hm

theorem callbackIter_tracing_indep (t1 t2 : Bool) (maxC : Nat) (o : CallbackOracle)
    (total idx k : Nat) (pe : Bool) :
    (callbackIter t1 maxC o total idx k pe).fc =
      (callbackIter t2 maxC o total idx k pe).fc ∧
    (callbackIter t1 maxC o total idx k pe).okAfter =
      (callbackIter t2 maxC o total idx k pe).okAfter ∧
    (callbackIter t1 maxC o total idx k pe).idxNext =
      (callbackIter t2 maxC o total idx k pe).idxNext := by
  rcases hc : convertPathsAux o.stringConvOk idx (chunkToReport maxC total idx).toNat 0
    with ⟨b, n⟩
  cases hf : o.framePushOk k <;> cases ha : o.arrayCreateOk k <;> cases pe <;> cases b <;>
    simp_all [callbackIter, createJavaArrayM, convertStep, forwardStep]

theorem callbackIter_ok_noThrow_pe (t : Bool) (maxC : Nat) (o : CallbackOracle)
    (total idx k : Nat)
    (h : (callbackIter t maxC o total idx k false).okAfter = true)
    (hth : o.forwardThrows k = false) :
    (callbackIter t maxC o total idx k false).peAfter = false := by
  rcases hc : convertPathsAux o.stringConvOk idx (chunkToReport maxC total idx).toNat 0
    with ⟨b, n⟩
  cases hf : o.framePushOk k <;> cases ha : o.arrayCreateOk k <;> cases b <;>
    simp_all [callbackIter, createJavaArrayM, convertStep, forwardStep]

theorem callbackLoop_tracing_indep (maxC : Nat) (o : CallbackOracle) (total : Nat)
    (hth : ∀ j, o.forwardThrows j = false) :
    ∀ fuel idx k,
      (callbackLoop true maxC o total fuel idx k false).forwards =
        (callbackLoop false maxC o total fuel idx k false).forwards
  | 0, _, _ => rfl
  | fuel + 1, idx, k => by
    obtain ⟨hfc, hok, hidx⟩ := callbackIter_tracing_indep true false maxC o total idx k false
    by_cases h : idx < total
    · rw [callbackLoop_forwards_step true maxC o total fuel idx k false h,
        callbackLoop_forwards_step false maxC o total fuel idx k false h]
      by_cases hko : (callbackIter true maxC o total idx k false).okAfter = true
      · have hko2 : (callbackIter false maxC o total idx k false).okAfter = true := by
          rw [← hok]; exact hko
        have hpe1 := callbackIter_ok_noThrow_pe true maxC o total idx k hko (hth k)
        have hpe2 := callbackIter_ok_noThrow_pe false maxC o total idx k hko2 (hth k)
        rw [if_pos hko, if_pos hko2, hfc, hidx, hpe1, hpe2,
          callbackLoop_tracing_indep maxC o total hth fuel _ (k + 1)]
      · have hko2 : ¬ (callbackIter false maxC o total idx k false).okAfter = true := by
          rw [← hok]; exact hko
        rw [if_neg hko, if_neg hko2, hfc]
    · simp [callbackLoop, h]

/-- Actions of the teardown race between the thread calling
Java_sun_nio_fs_MacOSXWatchService_runLoopStop and the run-loop hosting
thread blocked in CFRunLoopRun. -/
inductive LoopAction where
  | stopSignal
  | releaseRef
  | callbackUse
  | runReturns
  deriving DecidableEq, Repr

/-- Embedding of Java_sun_nio_fs_MacOSXWatchService_runLoopStop (lines
233-243): the stopping thread calls CFRunLoopStop and then immediately
DeleteGlobalRef on the handler reference, with no wait in between. -/
def runLoopStopActions : List LoopAction :=
  [LoopAction.stopSignal, LoopAction.releaseRef]

/-- An example action sequence of the hosting thread: a callback that is
still in flight uses the handler context, then CFRunLoopRun returns. -/
def hostTraceExample : List LoopAction :=
  [LoopAction.callbackUse, LoopAction.runReturns]

/-- Merge predicate: cs is an interleaving of as and bs that keeps the
order of each thread. -/
def isInterleaving : List LoopAction → List LoopAction → List LoopAction → Bool
  | [], [], [] => true
  | a :: as, [], c :: cs => decide (a = c) && isInterleaving as [] cs
  | [], b :: bs, c :: cs => decide (b = c) && isInterleaving [] bs cs
  | a :: as, b :: bs, c :: cs =>
    (decide (a = c) && isInterleaving as (b :: bs) cs) ||
    (decide (b = c) && isInterleaving (a :: as) bs cs)
  | _, _, _ => false

/-- Index of the first occurrence of an action in a schedule. -/
def idxOf (x : LoopAction) : List LoopAction → Nat
  | [] => 0
  | a :: as => if a = x then 0 else idxOf x as + 1

/-- A valid schedule of the teardown race: an interleaving of the stopper
thread actions (the runLoopStop body) with the hosting thread actions,
subject to the one cross-thread ordering CFRunLoopStop enforces: the run
loop returns from CFRunLoopRun only after the stop signal.  CFRunLoopStop
is asynchronous, so no other ordering is imposed. -/
def validSchedule (host sched : List LoopAction) : Prop :=
  isInterleaving runLoopStopActions host sched = true ∧
  idxOf LoopAction.stopSignal sched < idxOf LoopAction.runReturns sched

/-- The concrete schedule in which the stopper releases the handler
reference before the loop has stopped and before an in-flight callback
uses the context. -/
def scheduleExample : List LoopAction :=
  [LoopAction.stopSignal, LoopAction.releaseRef,
    LoopAction.callbackUse, LoopAction.runReturns]

theorem isInterleaving_sublist :
    ∀ (cs as bs : List LoopAction), isInterleaving as bs cs = true →
      List.Sublist as cs := by
  intro cs
  induction cs with
  | nil =>
    intro as bs h
    cases as <;> cases bs <;> simp [isInterleaving] at h ⊢
  | cons c cs ih =>
    intro as bs h
    cases as with
    | nil => exact List.nil_sublist _
    | cons a as2 =>
      cases bs with
      | nil =>
        rw [isInterleaving] at h
        rw [Bool.and_eq_true] at h
        rcases h with ⟨h1, h2⟩
        have h1 := of_decide_eq_true h1
        subst h1
        exact List.Sublist.cons₂ _ (ih _ _ h2)
      | cons b bs2 =>
        rw [isInterleaving] at h
        rw [Bool.or_eq_true, Bool.and_eq_true, Bool.and_eq_true] at h
        rcases h with ⟨h1, h2⟩ | ⟨h1, h2⟩
        · have h1 := of_decide_eq_true h1
          subst h1
          exact List.Sublist.cons₂ _ (ih _ _ h2)
        · exact List.Sublist.cons _ (ih _ _ h2)

/-- C2 counterexample: with the handler raising an error on the second of
3 chunks (tracing disabled, 5 events with chunk maximum 2), the handler
observes 3 forwarding calls, not the 2 the claim states: hasException
from the forwarding call never stops the loop. -/
theorem c2_counterexample :
    (runCallback false 2 oracleThrowsOnSecond 5 5).forwards.length = 3 ∧
    ¬ (runCallback false 2 oracleThrowsOnSecond 5 5).forwards.length = 2 := by
  decide

/-- C2 amended: a chunk construction failure still produces one forwarding
call for that chunk (the call at lines 124-126 is not guarded by OK) and
then ends the invocation, dropping the remaining chunks without retry:
in every run, every forwarding call except possibly the last had a fully
successful construction.  An error raised by the forwarding call itself
does not stop the loop (hasException is only inspected for tracing), so
with the handler throwing on the second of 3 chunks the handler observes
3 forwarding calls, while a NewObjectArray failure on the second of 3
chunks yields exactly 2 forwarding calls, the second carrying no paths
array and the third chunk being dropped. -/
theorem c2_amended_failure_semantics :
    (∀ tracing maxC o total fuel,
      ((runCallback tracing maxC o total fuel).forwards.dropLast).all
        (fun fc => fc.ok) = true) ∧
    (runCallback false 2 oracleArrayFailSecond 5 5).forwards =
      [⟨0, 2, true, 2, true⟩, ⟨2, 2, false, 0, false⟩] ∧
    (runCallback false 2 oracleThrowsOnSecond 5 5).forwards.length = 3 :=
  ⟨fun t maxC o total fuel => runCallback_dropLast_ok t maxC o total fuel,
    by decide, by decide⟩

/-- C3: the claim fails on the code as written: when JNU_NewStringPlatform
fails for the single event of a 1-event invocation, the forwarding call
is still made (it is not guarded by OK, lines 124-126) and passes a batch
whose count is 1 but whose paths array has 0 populated elements.
Conversely, whenever construction succeeded (OK was true at the call),
the batch observed by the handler is fully constructed: the array exists
and all count paths were stored before the forwarding call. -/
theorem c3_partial_batch_forwarded :
    ((runCallback false 5 oracleConvFails 1 2).forwards =
        [⟨0, 1, true, 0, false⟩] ∧
      (runCallback false 5 oracleConvFails 1 2).finished = true) ∧
    ∀ tracing maxC o total fuel fc,
      fc ∈ (runCallback tracing maxC o total fuel).forwards → fc.ok = true →
        fc.arrayCreated = true ∧ fc.pathsBuilt = fc.count.toNat := by
  refine ⟨by decide, ?_⟩
  intro tracing maxC o total fuel fc hm hok
  by_cases he : o.envOk = true
  · simp [runCallback, he] at hm
    exact callbackLoop_mem_ok_full tracing maxC o total fuel 0 0 false fc hm hok
  · simp [runCallback, he] at hm

theorem c3_witness :
    (ForwardCall.mk 0 2 true 2 true).arrayCreated = true ∧
    (ForwardCall.mk 0 2 true 2 true).pathsBuilt =
      (ForwardCall.mk 0 2 true 2 true).count.toNat :=
  c3_partial_batch_forwarded.2 false 5 allOk 2 3 (ForwardCall.mk 0 2 true 2 true)
    (by decide) (by decide)

/-- C9 counterexample: with the handler raising an error on the second of
4 chunks, the run with tracing enabled makes 4 forwarding calls while the
run with tracing disabled makes 3: the tracing-only ExceptionDescribe
clears the pending exception and thereby changes control flow. -/
theorem c9_counterexample :
    (runCallback true 2 oracleThrowsOnSecond 8 8).forwards.length = 4 ∧
    (runCallback false 2 oracleThrowsOnSecond 8 8).forwards.length = 3 ∧
    (runCallback true 2 oracleThrowsOnSecond 8 8).forwards ≠
      (runCallback false 2 oracleThrowsOnSecond 8 8).forwards := by
  decide

/-- C9 amended: as long as no forwarding call raises an exception, the
sequence of forwarding calls of the Callback Dispatcher is identical with
tracing enabled and disabled; when a forwarding call does raise, tracing
alters subsequent control flow, because the exception is described and
cleared only under tracing and otherwise stays pending and fails the next
chunk construction. -/
theorem c9_amended_tracing_independent (maxC : Nat) (o : CallbackOracle)
    (total fuel : Nat) (h : ∀ j, o.forwardThrows j = false) :
    (runCallback true maxC o total fuel).forwards =
      (runCallback false maxC o total fuel).forwards := by
  by_cases he : o.envOk = true
  · simp [runCallback, he]
    exact callbackLoop_tracing_indep maxC o total h fuel 0 0
  · simp [runCallback, he]

theorem c9_witness :
    (runCallback true 3 allOk 7 9).forwards =
      (runCallback false 3 allOk 7 9).forwards :=
  c9_amended_tracing_independent 3 allOk 7 9 (fun _ => rfl)

/-- C10: when the callback fires without a valid JNIEnv, the whole
invocation is dropped: no forwarding call is made, no exception is left
pending (the condition is never escalated), and the invocation produces
trace output exactly when tracing is enabled. -/
theorem c10_missing_env_drops_invocation (tracing : Bool) (maxC : Nat)
    (o : CallbackOracle) (total fuel : Nat) (h : o.envOk = false) :
    (runCallback tracing maxC o total fuel).forwards = [] ∧
    (runCallback tracing maxC o total fuel).pendingEx = false ∧
    ((runCallback tracing maxC o total fuel).entryTrace ≠ [] ↔ tracing = true) := by
  cases tracing <;> simp [runCallback, h]

theorem c10_witness :
    (runCallback true 2 oracleEnvMissing 3 5).forwards = [] ∧
    (runCallback true 2 oracleEnvMissing 3 5).pendingEx = false ∧
    ((runCallback true 2 oracleEnvMissing 3 5).entryTrace ≠ [] ↔ true = true) :=
  c10_missing_env_drops_invocation true 2 oracleEnvMissing 3 5 rfl

/-- C6: when watch creation fails because the path is not convertible to a
platform string or the OS refuses to allocate a stream, the create entry
point returns 0, no stream exists, and the function itself performs no
DeleteGlobalRef on the handler reference. -/
theorem c6_create_failure_no_release (o : CreateOracle)
    (h : o.toCFStringOk = false ∨ o.streamCreateOk = false) :
    (createNewEventStreamFor o).ret = 0 ∧
    (createNewEventStreamFor o).streamCreated = false ∧
    CreateAction.deleteGlobalRef ∉ (createNewEventStreamFor o).actions := by
  rcases o with ⟨a, b, c, d⟩
  rcases h with h | h <;> subst h
  · cases b <;> cases c <;> cases d <;> decide
  · cases a <;> cases b <;> cases d <;> decide

theorem c6_witness :
    (createNewEventStreamFor ⟨true, true, false, true⟩).ret = 0 ∧
    (createNewEventStreamFor ⟨true, true, false, true⟩).streamCreated = false ∧
    CreateAction.deleteGlobalRef ∉
      (createNewEventStreamFor ⟨true, true, false, true⟩).actions :=
  c6_create_failure_no_release ⟨true, true, false, true⟩ (Or.inr rfl)

/-- C7: once path validation succeeds, the create entry point acquires the
durable handler reference (NewGlobalRef) before the FSEventStreamCreate
request, that request carries the kFSEventStreamEventIdSinceNow anchor
(never a replay-history anchor), and no scheduling or stream start occurs
inside create: scheduling is the separate scheduleEventLoop entry point
invoked afterwards. -/
theorem c7_acquire_before_create_since_now (o : CreateOracle)
    (h1 : o.toCFStringOk = true) (h2 : o.cfArrayOk = true) :
    List.take 4 (createNewEventStreamFor o).actions =
      [CreateAction.toCFStringCall, CreateAction.cfArrayCreateCall,
        CreateAction.newGlobalRef, CreateAction.fsEventStreamCreate true] ∧
    CreateAction.fsEventStreamCreate false ∉ (createNewEventStreamFor o).actions ∧
    CreateAction.scheduleWithRunLoop ∉ (createNewEventStreamFor o).actions ∧
    CreateAction.streamStart ∉ (createNewEventStreamFor o).actions ∧
    scheduleEventLoopActions =
      [CreateAction.scheduleWithRunLoop, CreateAction.streamStart] := by
  rcases o with ⟨a, b, c, d⟩
  subst h1
  subst h2
  cases c <;> cases d <;> decide

theorem c7_witness :
    List.take 4 (createNewEventStreamFor ⟨true, true, true, true⟩).actions =
      [CreateAction.toCFStringCall, CreateAction.cfArrayCreateCall,
        CreateAction.newGlobalRef, CreateAction.fsEventStreamCreate true] ∧
    CreateAction.fsEventStreamCreate false ∉
      (createNewEventStreamFor ⟨true, true, true, true⟩).actions ∧
    CreateAction.scheduleWithRunLoop ∉
      (createNewEventStreamFor ⟨true, true, true, true⟩).actions ∧
    CreateAction.streamStart ∉
      (createNewEventStreamFor ⟨true, true, true, true⟩).actions ∧
    scheduleEventLoopActions =
      [CreateAction.scheduleWithRunLoop, CreateAction.streamStart] :=
  c7_acquire_before_create_since_now ⟨true, true, true, true⟩ rfl rfl

/-- C5 counterexample: the schedule stopSignal, releaseRef, callbackUse,
runReturns is a valid interleaving of the runLoopStop body with a hosting
thread that still runs an in-flight callback, and satisfies the only
cross-thread ordering CFRunLoopStop guarantees (the loop returns after
the signal); in it the durable reference release occurs before Run has
returned, refuting the claim that the release happens only after the
loop has stopped pumping. -/
theorem c5_counterexample :
    validSchedule hostTraceExample scheduleExample ∧
    idxOf LoopAction.releaseRef scheduleExample <
      idxOf LoopAction.runReturns scheduleExample := by
  refine ⟨⟨by decide, by decide⟩, by decide⟩

/-- C5 amended: runLoopStop signals the loop to stop and then releases the
durable HandlerContext reference immediately, without waiting for the
loop to stop: every interleaving orders the release after the stop signal
(both are sequenced on the stopping thread), but a valid schedule exists
in which the release precedes both the return of Run and a
still-in-flight callback use of the context. -/
theorem c5_amended_release_after_signal :
    (∀ host sched, isInterleaving runLoopStopActions host sched = true →
      List.Sublist runLoopStopActions sched) ∧
    validSchedule hostTraceExample scheduleExample ∧
    idxOf LoopAction.releaseRef scheduleExample <
      idxOf LoopAction.callbackUse scheduleExample := by
  refine ⟨fun host sched h => isInterleaving_sublist sched runLoopStopActions host h,
    ⟨by decide, by decide⟩, by decide⟩

theorem c5_witness : List.Sublist runLoopStopActions scheduleExample :=
  c5_amended_release_after_signal.1 hostTraceExample scheduleExample (by decide)
